import Mathlib

/-!
# lazarus firmware, `src/embedded/main.c`

A shallow embedding of the firmware's converter control (`SetupSD14`), the
sampling state machine (`SD14_ADC` and the loop of `main`), the custom command
(`userCustomCommand`), the driver table and the NDEF tag image, followed by the
properties proved about them.

Conventions of the embedding.

* A memory-mapped 16-bit register is a natural number; every store into one is
  reduced modulo `2 ^ 16`, `x &= ~m` is `bic16 x m` and `x |= m` is `bis16 x m`.
* The constants that `main.c` takes from the device header `rf430frl152h.h`
  are not part of the source tree; they are the fields of `Header`, and every
  function that uses one takes the header as its first argument.
* A read of a volatile hardware register (`SD14IV`, `SD14MEM0`) is an argument
  of the function that performs the read.
-/

namespace Lazarus

/-! ## The device header -/

/-- The constants of `rf430frl152h.h` used by `main.c`.  The header is not in
the source tree, so the values are parameters.  The last two fields are the
access widths, in bits, of the two declarations through which `main.c` writes
the RF transmit FIFO. -/
structure Header where
  SD14EN : Nat
  SD14IE : Nat
  SD14IFG : Nat
  SD14OVIFG : Nat
  SD14SGL : Nat
  SD14SC : Nat
  VIRTGND : Nat
  SD14DIV1 : Nat
  SD14RBEN1 : Nat
  SD14RBEN0 : Nat
  SD14UNI : Nat
  SD14GAIN0 : Nat
  SD14INTDLY0 : Nat
  SD14IV__NONE : Nat
  SD14IV__OV : Nat
  SD14IV__RES : Nat
  RF13MTXF_L_bits : Nat
  RF13MTXF_bits : Nat

/-- One concrete assignment of the header constants: every flag is a single
bit, the flags of one register are pairwise distinct, the flags of `SD14CTL1`
lie above its three-bit input-channel field, the three interrupt-vector values
are distinct, `RF13MTXF_L` is the byte-wide low half of the transmit FIFO
register and `RF13MTXF` the full 16-bit register. -/
def sampleHeader : Header where
  SD14EN := 0x0001
  SD14IE := 0x0002
  SD14IFG := 0x0004
  SD14OVIFG := 0x0010
  SD14SGL := 0x0020
  SD14SC := 0x0040
  VIRTGND := 0x0080
  SD14DIV1 := 0x0200
  SD14RBEN1 := 0x8000
  SD14RBEN0 := 0x4000
  SD14UNI := 0x1000
  SD14GAIN0 := 0x0200
  SD14INTDLY0 := 0x0008
  SD14IV__NONE := 0x0000
  SD14IV__OV := 0x0002
  SD14IV__RES := 0x0004
  RF13MTXF_L_bits := 8
  RF13MTXF_bits := 16

/-! ## Machine integers -/

/-- Store into a 16-bit object: the value is reduced modulo `2 ^ 16`. -/
def u16 (x : Nat) : Nat := x % 65536

/-- The C statement `x &= ~m` on a 16-bit register. -/
def bic16 (x m : Nat) : Nat := x &&& (0xFFFF ^^^ (m % 65536))

/-- The C statement `x |= m` on a 16-bit register. -/
def bis16 (x m : Nat) : Nat := (x ||| m) % 65536

/-! ## Program constants (main.c lines 52-65) -/

/-- Member of `enum state_type`. -/
def IDLE_STATE : Nat := 1

/-- Member of `enum state_type`. -/
def ONE_SHOT_TEMP_REFERENCE_SAMPLE_STATE : Nat := 2

/-- Member of `enum state_type`. -/
def ONE_SHOT_TEMP_THERMISTOR_SAMPLE_STATE : Nat := 3

/-- Member of `enum Channel_Types`. -/
def ADC0_CHANNEL : Nat := 0x0

/-- Member of `enum Channel_Types`. -/
def INTERNAL_TEMPERATURE_CHANNEL : Nat := 0x1

/-- Member of `enum Channel_Types`. -/
def THERMISTOR_ADC2_CHANNEL : Nat := 0x2

/-- Member of `enum Channel_Types`. -/
def REFERENCE_ADC1_CHANNEL : Nat := 0x3

/-! ## Program state -/

/-- One write into the RF transmit FIFO: the access width in bits and the
value written. -/
structure TxWrite where
  bits : Nat
  value : Nat
deriving DecidableEq, Repr

/-- The variables and registers that `SetupSD14`, `SD14_ADC` and
`userCustomCommand` read or write: the globals `State` (`u08_t`) and
`SamplesBuffer` (`u16_t[4]`), the converter control registers, and the
sequence of writes made so far to the RF transmit FIFO (oldest first). -/
structure Machine where
  State : Nat
  SamplesBuffer : Fin 4 → Nat
  SD14CTL0 : Nat
  SD14CTL1 : Nat
  RF13MTX : List TxWrite

/-- What an interrupt handler leaves behind: the machine, and whether it
executed `__bic_SR_register_on_exit(LPM4_bits)`, which clears the
low-power-mode bits of the saved status register so that the main flow resumes
when the handler returns. -/
structure IsrExit where
  machine : Machine
  wake : Bool

/-! ## Converter control and the interrupt handler -/

/-- Embedding of `SetupSD14` (main.c lines 305-316). -/
def SetupSD14 (H : Header) (channel : Nat) (m : Machine) : Machine :=
  let ctl1 := H.SD14RBEN1 + H.SD14RBEN0 + H.SD14UNI + H.SD14GAIN0 + H.SD14INTDLY0 + channel
  let m1 := { m with SD14CTL1 := u16 ctl1 }
  let m2 := { m1 with SD14CTL0 := u16 (H.SD14IE + H.SD14SGL + H.SD14DIV1) }
  let m3 := { m2 with SD14CTL0 := bis16 m2.SD14CTL0 H.SD14EN }
  { m3 with SD14CTL0 := bis16 m3.SD14CTL0 H.SD14SC }

/-- Embedding of the interrupt handler `SD14_ADC` (main.c lines 319-347).
The argument `iv` is the value read from `SD14IV`, `mem0` the value a read of
`SD14MEM0` returns.  A value of `iv` that matches no case label falls out of
the `switch`. -/
def SD14_ADC (H : Header) (iv mem0 : Nat) (m : Machine) : IsrExit :=
  if iv = H.SD14IV__NONE then
    ⟨m, false⟩
  else if iv = H.SD14IV__OV then
    ⟨{ m with SD14CTL0 := bic16 m.SD14CTL0 H.SD14OVIFG }, false⟩
  else if iv = H.SD14IV__RES then
    let m1 := { m with SD14CTL0 := bic16 m.SD14CTL0 H.SD14IFG }
    if m1.State = ONE_SHOT_TEMP_REFERENCE_SAMPLE_STATE then
      let m2 := { m1 with State := ONE_SHOT_TEMP_THERMISTOR_SAMPLE_STATE }
      let m3 := { m2 with SamplesBuffer := Function.update m2.SamplesBuffer 0 (u16 mem0) }
      ⟨SetupSD14 H THERMISTOR_ADC2_CHANNEL m3, false⟩
    else if m1.State = ONE_SHOT_TEMP_THERMISTOR_SAMPLE_STATE then
      let m2 := { m1 with SamplesBuffer := Function.update m1.SamplesBuffer 1 (u16 mem0) }
      let m3 := { m2 with SD14CTL0 := bic16 m2.SD14CTL0 H.SD14EN }
      let m4 := { m3 with State := IDLE_STATE }
      ⟨m4, true⟩
    else
      ⟨m1, false⟩
  else
    ⟨m, false⟩

/-- Embedding of `userCustomCommand` (main.c lines 426-446).  The argument
`mem0` is the value the read of `SD14MEM0` returns after the fixed delay. -/
def userCustomCommand (H : Header) (mem0 : Nat) (m : Machine) : Machine :=
  let m1 := { m with SD14CTL0 := u16 (H.SD14EN + H.VIRTGND) }
  let m2 := { m1 with SD14CTL0 := bis16 m1.SD14CTL0 H.SD14SC }
  let m3 := { m2 with SD14CTL1 := u16 0xD043 }
  let m4 := { m3 with SamplesBuffer := Function.update m3.SamplesBuffer 0 (u16 mem0) }
  let lo := TxWrite.mk H.RF13MTXF_L_bits (0 % 2 ^ H.RF13MTXF_L_bits)
  let m5 := { m4 with RF13MTX := m4.RF13MTX ++ [lo] }
  let full := TxWrite.mk H.RF13MTXF_bits (m5.SamplesBuffer 0 % 2 ^ H.RF13MTXF_bits)
  { m5 with RF13MTX := m5.RF13MTX ++ [full] }

/-! ## The main flow (main.c lines 275-300) -/

/-- Where the main flow stands: about to execute line 290 (the cycle request),
suspended in the low-power mode entered at line 292, or suspended in the one
entered at line 297. -/
inductive MainPC where
  | line290
  | line292
  | line297
deriving DecidableEq, Repr

/-- The whole system: the machine, the position of the main flow, and the
general-interrupt-enable bit of the status register. -/
structure Sys where
  m : Machine
  pc : MainPC
  gie : Bool

/-- The state at the entry of the loop of `main`: objects of static storage
duration (`State`, `SamplesBuffer`) hold zero, interrupts have not been
enabled yet, and the converter registers hold whatever the hardware left in
them. -/
def initial (ctl0 ctl1 : Nat) : Sys :=
  ⟨⟨0, fun _ => 0, ctl0, ctl1, []⟩, MainPC.line290, false⟩

/-- Lines 290-291 of `main`: the cycle request. -/
def cycleRequest (H : Header) (m : Machine) : Machine :=
  SetupSD14 H REFERENCE_ADC1_CHANNEL { m with State := ONE_SHOT_TEMP_REFERENCE_SAMPLE_STATE }

/-- Where the main flow continues once the low-power mode it is suspended in
has been left: from line 292 it runs into the second `__bis_SR_register` at
line 297, from line 297 it runs round the loop to line 290. -/
def MainPC.resume : MainPC → MainPC
  | MainPC.line290 => MainPC.line290
  | MainPC.line292 => MainPC.line297
  | MainPC.line297 => MainPC.line290

/-- The events of the system. -/
inductive Event where
  | request
  | interrupt (iv mem0 : Nat)

/-- One step of the system.  The cycle request is taken when the main flow
stands at line 290; it ends in the `__bis_SR_register(LPM3_bits + GIE)` of
line 292, which sets GIE and suspends the main flow.  The handler runs only
when GIE is set; when it signals wake the main flow resumes. -/
def step (H : Header) : Event → Sys → Option Sys
  | Event.request, s =>
    if s.pc = MainPC.line290 then some ⟨cycleRequest H s.m, MainPC.line292, true⟩ else none
  | Event.interrupt iv mem0, s =>
    if s.gie = true then
      let r := SD14_ADC H iv mem0 s.m
      some ⟨r.machine, if r.wake = true then s.pc.resume else s.pc, true⟩
    else none

/-- Run a sequence of events; `none` when one of them is not enabled. -/
def exec (H : Header) : List Event → Sys → Option Sys
  | [], s => some s
  | e :: es, s => (step H e s).bind (exec H es)

/-- The change of `State` from `a` to `b` is one of the three edges of the
cycle Idle, AwaitingReference, AwaitingThermistor, Idle. -/
def cycleEdge (a b : Nat) : Prop :=
  (a = IDLE_STATE ∧ b = ONE_SHOT_TEMP_REFERENCE_SAMPLE_STATE) ∨
  (a = ONE_SHOT_TEMP_REFERENCE_SAMPLE_STATE ∧ b = ONE_SHOT_TEMP_THERMISTOR_SAMPLE_STATE) ∨
  (a = ONE_SHOT_TEMP_THERMISTOR_SAMPLE_STATE ∧ b = IDLE_STATE)

instance (a b : Nat) : Decidable (cycleEdge a b) := by
  unfold cycleEdge
  infer_instance

/-- The value is one of the three members of `enum state_type`. -/
def isStateType (a : Nat) : Prop :=
  a = IDLE_STATE ∨ a = ONE_SHOT_TEMP_REFERENCE_SAMPLE_STATE ∨
    a = ONE_SHOT_TEMP_THERMISTOR_SAMPLE_STATE

instance (a : Nat) : Decidable (isStateType a) := by
  unfold isStateType
  infer_instance

/-- Run the handler once for every element of `mems` with cause overflow; the
element is the content of `SD14MEM0` at that interrupt. -/
def overflows (H : Header) : List Nat → Machine → Machine
  | [], m => m
  | mem0 :: rest, m => overflows H rest (SD14_ADC H H.SD14IV__OV mem0 m).machine

/-- What holds of the system once the main flow has made its cycle request:
interrupts are enabled and the main flow is suspended, at line 292 while the
cycle is in flight and at line 297 once it has completed. -/
def afterRequest (s : Sys) : Prop :=
  s.gie = true ∧
  ((s.pc = MainPC.line292 ∧ (s.m.State = ONE_SHOT_TEMP_REFERENCE_SAMPLE_STATE ∨
      s.m.State = ONE_SHOT_TEMP_THERMISTOR_SAMPLE_STATE)) ∨
   (s.pc = MainPC.line297 ∧ s.m.State = IDLE_STATE))

instance (s : Sys) : Decidable (afterRequest s) := by
  unfold afterRequest
  infer_instance

/-! ## The driver table (main.c lines 135-215) -/

/-- Starting address of the driver table. -/
def DRIVER_TABLE_START : Nat := 0xFFCE

/-- Identifier marking the start and the end of the driver table. -/
def DRIVER_TABLE_KEY : Nat := 0xCECE

/-- The user custom command. -/
def USER_CUSTOM_COMMAND_ID : Nat := 0x00AA

/-- Number of driver functions in the table. -/
def NUMBER_OF_DRIVER_FUNCTIONS : Nat := 1

/-- Location of the command ID of the first pair. -/
def DRIVER_1_COMMAND : Nat := DRIVER_TABLE_START - 2

/-- Location of the function address of the first pair. -/
def DRIVER_1_ADDR : Nat := DRIVER_TABLE_START - 4

/-- Location of the ending key. -/
def DRIVER_TABLE_END : Nat := DRIVER_TABLE_START - 2 - (NUMBER_OF_DRIVER_FUNCTIONS * 4)

/-- A constant object that a location pragma places at a fixed address: the
address, the size in bytes and the value. -/
structure Placed where
  location : Nat
  size : Nat
  value : Nat
deriving DecidableEq, Repr

/-- The constant START_KEY, a 16-bit word. -/
def START_KEY : Placed := ⟨DRIVER_TABLE_START, 2, DRIVER_TABLE_KEY⟩

/-- The constant CustomCommandID, a 16-bit word. -/
def CustomCommandID : Placed := ⟨DRIVER_1_COMMAND, 2, USER_CUSTOM_COMMAND_ID⟩

/-- The constant CustomCommandAddress, a function pointer of the 16-bit
processor; its value, the address the linker gives userCustomCommand, is the
argument. -/
def CustomCommandAddress (userCustomCommandAddress : Nat) : Placed :=
  ⟨DRIVER_1_ADDR, 2, userCustomCommandAddress⟩

/-- The constant END_KEY, a 16-bit word. -/
def END_KEY : Placed := ⟨DRIVER_TABLE_END, 2, DRIVER_TABLE_KEY⟩

/-- The driver table image built by the firmware, in the order of the
declarations in main.c. -/
def driverTableImage (userCustomCommandAddress : Nat) : List Placed :=
  [START_KEY, CustomCommandID, CustomCommandAddress userCustomCommandAddress, END_KEY]

/-- The 16-bit word of an image at an address, when a word is placed there. -/
def readWord (image : List Placed) (address : Nat) : Option Nat :=
  (image.find? (fun p => decide (p.location = address ∧ p.size = 2))).map (fun p => p.value)

/-- Each object of the list ends exactly where the one before it starts: the
objects lie at descending addresses with no gap and no overlap. -/
def contiguousDescending : List Placed → Bool
  | p :: q :: rest => decide (q.location + q.size = p.location) && contiguousDescending (q :: rest)
  | _ => true

/-- Modelled from the spec: the routine of the ROM protocol stack that parses
the driver table is not part of the source.  Following the table format (a
start key, then pairs of command ID and handler address at descending
addresses, then an ending key equal to the start key), the pairs are read from
the given address downwards until the word in the position of a command ID
equals the key.  The first argument bounds the number of pairs read. -/
def parseEntries (mem : Nat → Option Nat) : Nat → Nat → Option (List (Nat × Nat))
  | 0, _ => none
  | fuel + 1, address =>
    match mem address with
    | none => none
    | some id =>
      if id = DRIVER_TABLE_KEY then some []
      else
        match mem (address - 2) with
        | none => none
        | some handler => (parseEntries mem fuel (address - 4)).map (fun rest => (id, handler) :: rest)

/-- Modelled from the spec: the table exists when the start key is present at
the starting address; its entries are then the pairs up to the ending key. -/
def parseDriverTable (mem : Nat → Option Nat) : Option (List (Nat × Nat)) :=
  match mem DRIVER_TABLE_START with
  | none => none
  | some key =>
    if key = DRIVER_TABLE_KEY then parseEntries mem (DRIVER_TABLE_START / 4) (DRIVER_TABLE_START - 2)
    else none

/-- Modelled from the spec: the lookup the protocol stack makes on receiving a
custom command, the handler address of the first entry with the command ID. -/
def lookupCommand (mem : Nat → Option Nat) (commandId : Nat) : Option Nat :=
  match parseDriverTable mem with
  | none => none
  | some entries => (entries.find? (fun entry => decide (entry.1 = commandId))).map (fun entry => entry.2)

/-! ## The NDEF tag image (main.c lines 217-252) -/

/-- The array NFC_NDEF_Message: the twenty bytes of the initialiser, and the
twenty-first element of the array, which has no initialiser and is zero. -/
def NFC_NDEF_Message : List Nat :=
  [0xE1, 0x40, 0xF2, 0x00,
   0x03, 0x0B, 0xD1, 0x01,
   0x07, 0x55, 0x01, 0x74,
   0x69, 0x2E, 0x63, 0x6F,
   0x6D, 0xFE, 0x00, 0x00,
   0x00]

/-- A block of the tag memory in type-length-value form: the type byte, the
length byte, the value bytes, and the offset of the byte after the block. -/
structure TLVBlock where
  type : Nat
  length : Nat
  value : List Nat
  next : Nat
deriving DecidableEq, Repr

/-- Read the type-length-value block that starts at an offset of a byte
sequence; none when the sequence is too short to hold it. -/
def readTLV (bytes : List Nat) (offset : Nat) : Option TLVBlock :=
  match bytes.get? offset, bytes.get? (offset + 1) with
  | some type, some length =>
    if offset + 2 + length ≤ bytes.length then
      some ⟨type, length, (bytes.drop (offset + 2)).take length, offset + 2 + length⟩
    else none
  | _, _ => none

/-- A short NDEF record: the header byte, the type-length byte, the
payload-length byte, the type, the payload, and the bytes left over. -/
structure ShortRecord where
  header : Nat
  typeLength : Nat
  payloadLength : Nat
  type : List Nat
  payload : List Nat
  rest : List Nat
deriving DecidableEq, Repr

/-- Read one short NDEF record from the front of a byte sequence; none when
the sequence is shorter than its length bytes announce. -/
def readShortRecord : List Nat → Option ShortRecord
  | header :: typeLength :: payloadLength :: body =>
    if typeLength + payloadLength ≤ body.length then
      some ⟨header, typeLength, payloadLength, body.take typeLength,
        (body.drop typeLength).take payloadLength, body.drop (typeLength + payloadLength)⟩
    else none
  | _ => none

/-! ## Bit-level facts about the register operations -/

theorem add_eq_lor_of_land_eq_zero : ∀ (a b : Nat), a &&& b = 0 → a + b = a ||| b := by
  intro a
  induction a using Nat.binaryRec with
  | z => intro b _; simp
  | f ba a ih =>
    intro b
    induction b using Nat.binaryRec with
    | z => intro _; simp
    | f bb b _ =>
      intro h
      rw [Nat.land_bit] at h
      rw [Nat.lor_bit]
      have h0 := Nat.bit_eq_zero_iff.mp h
      have h1 := ih b h0.1
      rw [← h1]
      have h2 := h0.2
      simp only [Nat.bit_val]
      cases ba <;> cases bb <;> simp at h2 ⊢ <;> omega

theorem testBit_65535 (i : Nat) : Nat.testBit 65535 i = decide (i < 16) := by
  have h := Nat.testBit_two_pow_sub_one 16 i
  norm_num at h
  simpa using h

theorem testBit_mod_65536 (x i : Nat) :
    (x % 65536).testBit i = (decide (i < 16) && x.testBit i) := by
  have h := Nat.testBit_mod_two_pow x 16 i
  norm_num at h
  simpa using h

theorem testBit_of_lt_65536 {x : Nat} (hx : x < 65536) (i : Nat) :
    x.testBit i = (decide (i < 16) && x.testBit i) := by
  have h := testBit_mod_65536 x i
  rwa [Nat.mod_eq_of_lt hx] at h

theorem testBit_bic16 (x m i : Nat) :
    (bic16 x m).testBit i = (x.testBit i && decide (i < 16) && !m.testBit i) := by
  simp only [bic16, Nat.testBit_and, Nat.testBit_xor, testBit_65535, testBit_mod_65536]
  cases x.testBit i <;> cases m.testBit i <;> cases decide (i < 16) <;> rfl

theorem testBit_bis16 (x m i : Nat) :
    (bis16 x m).testBit i = (decide (i < 16) && (x.testBit i || m.testBit i)) := by
  simp only [bis16, Nat.testBit_or, testBit_mod_65536]

theorem testBit_u16 (x i : Nat) : (u16 x).testBit i = (decide (i < 16) && x.testBit i) := by
  simp only [u16, testBit_mod_65536]

theorem land_eq_zero_testBit {a b : Nat} (h : a &&& b = 0) (i : Nat) :
    (a.testBit i && b.testBit i) = false := by
  rw [← Nat.testBit_and, h]
  simp

theorem bic16_land_self (x m : Nat) : bic16 x m &&& m = 0 := by
  apply Nat.eq_of_testBit_eq
  intro i
  simp only [Nat.testBit_and, testBit_bic16, Nat.zero_testBit]
  cases x.testBit i <;> cases m.testBit i <;> cases decide (i < 16) <;> rfl

theorem bis16_land_self (x m : Nat) (hm : m < 65536) : bis16 x m &&& m = m := by
  apply Nat.eq_of_testBit_eq
  intro i
  rw [Nat.testBit_and, testBit_bis16, testBit_of_lt_65536 hm i]
  cases x.testBit i <;> cases m.testBit i <;> cases decide (i < 16) <;> rfl

/-! ## The overflow interrupt (C3) -/

/-- C3. For every value of State, every content of SamplesBuffer and every
16-bit value of SD14CTL0, the handler run with cause overflow leaves State,
every slot of SamplesBuffer, SD14CTL1 and the transmit FIFO unchanged, does not
signal wake, and changes SD14CTL0 only by clearing the bits of SD14OVIFG: every
other bit keeps its value, and so does the enable bit, SD14EN being a flag
distinct from SD14OVIFG. -/
theorem overflow_interrupt_frame (H : Header) (mem0 : Nat) (m : Machine)
    (hlabel : H.SD14IV__OV ≠ H.SD14IV__NONE) (hreg : m.SD14CTL0 < 65536)
    (hflags : H.SD14EN &&& H.SD14OVIFG = 0) :
    (SD14_ADC H H.SD14IV__OV mem0 m).machine.State = m.State ∧
    (SD14_ADC H H.SD14IV__OV mem0 m).machine.SamplesBuffer = m.SamplesBuffer ∧
    (SD14_ADC H H.SD14IV__OV mem0 m).wake = false ∧
    (SD14_ADC H H.SD14IV__OV mem0 m).machine.SD14CTL1 = m.SD14CTL1 ∧
    (SD14_ADC H H.SD14IV__OV mem0 m).machine.RF13MTX = m.RF13MTX ∧
    (SD14_ADC H H.SD14IV__OV mem0 m).machine.SD14CTL0 &&& H.SD14OVIFG = 0 ∧
    (∀ i, (SD14_ADC H H.SD14IV__OV mem0 m).machine.SD14CTL0.testBit i
        = (m.SD14CTL0.testBit i && !H.SD14OVIFG.testBit i)) ∧
    (SD14_ADC H H.SD14IV__OV mem0 m).machine.SD14CTL0 &&& H.SD14EN
        = m.SD14CTL0 &&& H.SD14EN := by
  have hrun : SD14_ADC H H.SD14IV__OV mem0 m
      = ⟨{ m with SD14CTL0 := bic16 m.SD14CTL0 H.SD14OVIFG }, false⟩ := by
    simp [SD14_ADC, hlabel]
  rw [hrun]
  refine ⟨rfl, rfl, rfl, rfl, rfl, bic16_land_self _ _, ?_, ?_⟩
  · intro i
    show (bic16 m.SD14CTL0 H.SD14OVIFG).testBit i = _
    rw [testBit_bic16, testBit_of_lt_65536 hreg i]
    cases m.SD14CTL0.testBit i <;> cases H.SD14OVIFG.testBit i <;> cases decide (i < 16) <;> rfl
  · show bic16 m.SD14CTL0 H.SD14OVIFG &&& H.SD14EN = _
    apply Nat.eq_of_testBit_eq
    intro i
    have hd := land_eq_zero_testBit hflags i
    rw [Nat.testBit_and, Nat.testBit_and, testBit_bic16, testBit_of_lt_65536 hreg i]
    revert hd
    cases m.SD14CTL0.testBit i <;> cases H.SD14OVIFG.testBit i <;> cases H.SD14EN.testBit i <;>
      cases decide (i < 16) <;> simp

/-- Witness of C3: the overflow interrupt taken in the state AwaitingThermistor
with the converter running (SD14CTL0 = 0x0273, overflow flag set). -/
theorem overflow_interrupt_frame_witness :
    (SD14_ADC sampleHeader sampleHeader.SD14IV__OV 9 ⟨3, fun _ => 5, 0x0273, 0xD20A, []⟩).machine.State = 3 ∧
    (SD14_ADC sampleHeader sampleHeader.SD14IV__OV 9 ⟨3, fun _ => 5, 0x0273, 0xD20A, []⟩).machine.SD14CTL0
      &&& sampleHeader.SD14EN = 0x0273 &&& sampleHeader.SD14EN :=
  have h := overflow_interrupt_frame sampleHeader 9 ⟨3, fun _ => 5, 0x0273, 0xD20A, []⟩
    (by decide) (by decide) (by decide)
  ⟨h.1, h.2.2.2.2.2.2.2⟩

/-! ## Converter control (C4) -/

/-- C4. For each of the four channels and every prior machine, after
SetupSD14 the register SD14CTL0 has SD14EN and SD14SC set and, these two
flags apart, equals exactly SD14IE + SD14SGL + SD14DIV1; SD14CTL1 equals
SD14RBEN1 + SD14RBEN0 + SD14UNI + SD14GAIN0 + SD14INTDLY0 with the three-bit
input-channel field holding the channel; both registers are the same for every
other prior machine, so they depend on the channel alone.  The flags are
those of a 16-bit register, the flags summed into SD14CTL0 are disjoint from
SD14EN and SD14SC, and the flags summed into SD14CTL1 lie above the channel
field. -/
theorem SetupSD14_registers (H : Header) (channel : Nat) (m : Machine)
    (hch : channel = ADC0_CHANNEL ∨ channel = INTERNAL_TEMPERATURE_CHANNEL ∨
      channel = THERMISTOR_ADC2_CHANNEL ∨ channel = REFERENCE_ADC1_CHANNEL)
    (hEN : H.SD14EN < 65536) (hSC : H.SD14SC < 65536)
    (hctl0 : H.SD14IE + H.SD14SGL + H.SD14DIV1 < 65536)
    (hdis : (H.SD14IE + H.SD14SGL + H.SD14DIV1) &&& (H.SD14EN ||| H.SD14SC) = 0)
    (hctl1 : H.SD14RBEN1 + H.SD14RBEN0 + H.SD14UNI + H.SD14GAIN0 + H.SD14INTDLY0 + 7 < 65536)
    (hfield : (H.SD14RBEN1 + H.SD14RBEN0 + H.SD14UNI + H.SD14GAIN0 + H.SD14INTDLY0) % 8 = 0) :
    (SetupSD14 H channel m).SD14CTL0 &&& H.SD14EN = H.SD14EN ∧
    (SetupSD14 H channel m).SD14CTL0 &&& H.SD14SC = H.SD14SC ∧
    bic16 (SetupSD14 H channel m).SD14CTL0 (H.SD14EN ||| H.SD14SC)
      = H.SD14IE + H.SD14SGL + H.SD14DIV1 ∧
    (SetupSD14 H channel m).SD14CTL1
      = H.SD14RBEN1 + H.SD14RBEN0 + H.SD14UNI + H.SD14GAIN0 + H.SD14INTDLY0 + channel ∧
    (SetupSD14 H channel m).SD14CTL1 % 8 = channel ∧
    (SetupSD14 H channel m).SD14CTL1 / 8 * 8
      = H.SD14RBEN1 + H.SD14RBEN0 + H.SD14UNI + H.SD14GAIN0 + H.SD14INTDLY0 ∧
    (∀ m2 : Machine, (SetupSD14 H channel m2).SD14CTL0 = (SetupSD14 H channel m).SD14CTL0 ∧
      (SetupSD14 H channel m2).SD14CTL1 = (SetupSD14 H channel m).SD14CTL1) := by
  have hc : channel ≤ 3 := by
    rcases hch with h | h | h | h <;> rw [h] <;> decide
  have h0 : (SetupSD14 H channel m).SD14CTL0
      = bis16 (bis16 (u16 (H.SD14IE + H.SD14SGL + H.SD14DIV1)) H.SD14EN) H.SD14SC := rfl
  have h1 : (SetupSD14 H channel m).SD14CTL1
      = H.SD14RBEN1 + H.SD14RBEN0 + H.SD14UNI + H.SD14GAIN0 + H.SD14INTDLY0 + channel := by
    show u16 _ = _
    unfold u16
    omega
  refine ⟨?_, ?_, ?_, h1, ?_, ?_, fun m2 => ⟨rfl, rfl⟩⟩
  · rw [h0]
    apply Nat.eq_of_testBit_eq
    intro i
    rw [Nat.testBit_and, testBit_bis16, testBit_bis16, testBit_of_lt_65536 hEN i]
    cases H.SD14EN.testBit i <;> cases decide (i < 16) <;> simp
  · rw [h0]
    exact bis16_land_self _ _ hSC
  · rw [h0]
    apply Nat.eq_of_testBit_eq
    intro i
    have hd := land_eq_zero_testBit hdis i
    rw [Nat.testBit_or] at hd
    rw [testBit_bic16, testBit_bis16, testBit_bis16, testBit_u16, Nat.testBit_or,
      testBit_of_lt_65536 hctl0 i]
    revert hd
    cases (H.SD14IE + H.SD14SGL + H.SD14DIV1).testBit i <;> cases H.SD14EN.testBit i <;>
      cases H.SD14SC.testBit i <;> cases decide (i < 16) <;> simp
  · rw [h1]
    omega
  · rw [h1]
    omega

/-- Witness of C4: the reference channel configured over a converter left in
an arbitrary earlier configuration. -/
theorem SetupSD14_registers_witness :
    (SetupSD14 sampleHeader REFERENCE_ADC1_CHANNEL ⟨1, fun _ => 0, 0xFFFF, 0x0007, []⟩).SD14CTL0
      = 0x0263 ∧
    (SetupSD14 sampleHeader REFERENCE_ADC1_CHANNEL ⟨1, fun _ => 0, 0xFFFF, 0x0007, []⟩).SD14CTL1 % 8
      = REFERENCE_ADC1_CHANNEL :=
  ⟨by decide,
   (SetupSD14_registers sampleHeader REFERENCE_ADC1_CHANNEL ⟨1, fun _ => 0, 0xFFFF, 0x0007, []⟩
      (Or.inr (Or.inr (Or.inr rfl))) (by decide) (by decide) (by decide) (by decide)
      (by decide) (by decide)).2.2.2.2.1⟩

/-! ## The handler, case by case -/

theorem SD14_ADC_overflow_State (H : Header) (mem0 : Nat) (m : Machine) :
    (SD14_ADC H H.SD14IV__OV mem0 m).machine.State = m.State ∧
    (SD14_ADC H H.SD14IV__OV mem0 m).machine.SamplesBuffer = m.SamplesBuffer ∧
    (SD14_ADC H H.SD14IV__OV mem0 m).wake = false := by
  unfold SD14_ADC
  by_cases h : H.SD14IV__OV = H.SD14IV__NONE
  · simp [h]
  · simp [h]

theorem overflows_State (H : Header) (mems : List Nat) (m : Machine) :
    (overflows H mems m).State = m.State ∧
    (overflows H mems m).SamplesBuffer = m.SamplesBuffer := by
  induction mems generalizing m with
  | nil => exact ⟨rfl, rfl⟩
  | cons mem0 rest ih =>
    have h := SD14_ADC_overflow_State H mem0 m
    have h2 := ih (SD14_ADC H H.SD14IV__OV mem0 m).machine
    exact ⟨h2.1.trans h.1, h2.2.trans h.2.1⟩

theorem SD14_ADC_reference (H : Header) (mem0 : Nat) (m : Machine)
    (h1 : H.SD14IV__RES ≠ H.SD14IV__NONE) (h2 : H.SD14IV__RES ≠ H.SD14IV__OV)
    (hs : m.State = ONE_SHOT_TEMP_REFERENCE_SAMPLE_STATE) :
    SD14_ADC H H.SD14IV__RES mem0 m =
      ⟨SetupSD14 H THERMISTOR_ADC2_CHANNEL
        { m with SD14CTL0 := bic16 m.SD14CTL0 H.SD14IFG,
                 State := ONE_SHOT_TEMP_THERMISTOR_SAMPLE_STATE,
                 SamplesBuffer := Function.update m.SamplesBuffer 0 (u16 mem0) }, false⟩ := by
  simp [SD14_ADC, h1, h2, hs]

theorem SD14_ADC_thermistor (H : Header) (mem0 : Nat) (m : Machine)
    (h1 : H.SD14IV__RES ≠ H.SD14IV__NONE) (h2 : H.SD14IV__RES ≠ H.SD14IV__OV)
    (hs : m.State = ONE_SHOT_TEMP_THERMISTOR_SAMPLE_STATE) :
    SD14_ADC H H.SD14IV__RES mem0 m =
      ⟨{ m with SD14CTL0 := bic16 (bic16 m.SD14CTL0 H.SD14IFG) H.SD14EN,
                State := IDLE_STATE,
                SamplesBuffer := Function.update m.SamplesBuffer 1 (u16 mem0) }, true⟩ := by
  simp [SD14_ADC, h1, h2, hs, ONE_SHOT_TEMP_THERMISTOR_SAMPLE_STATE,
    ONE_SHOT_TEMP_REFERENCE_SAMPLE_STATE]

theorem SD14_ADC_State_cases (H : Header) (iv mem0 : Nat) (m : Machine) :
    ((SD14_ADC H iv mem0 m).machine.State = m.State ∧ (SD14_ADC H iv mem0 m).wake = false) ∨
    (m.State = ONE_SHOT_TEMP_REFERENCE_SAMPLE_STATE ∧
      (SD14_ADC H iv mem0 m).machine.State = ONE_SHOT_TEMP_THERMISTOR_SAMPLE_STATE ∧
      (SD14_ADC H iv mem0 m).wake = false) ∨
    (m.State = ONE_SHOT_TEMP_THERMISTOR_SAMPLE_STATE ∧
      (SD14_ADC H iv mem0 m).machine.State = IDLE_STATE ∧
      (SD14_ADC H iv mem0 m).wake = true) := by
  by_cases h1 : iv = H.SD14IV__NONE
  · left
    simp only [SD14_ADC, if_pos h1, and_self]
  by_cases h2 : iv = H.SD14IV__OV
  · left
    simp only [SD14_ADC, if_neg h1, if_pos h2, and_self]
  by_cases h3 : iv = H.SD14IV__RES
  · by_cases h4 : m.State = ONE_SHOT_TEMP_REFERENCE_SAMPLE_STATE
    · right; left
      simp only [SD14_ADC, if_neg h1, if_neg h2, if_pos h3, if_pos h4, SetupSD14, and_self]
      exact ⟨h4, trivial⟩
    · by_cases h5 : m.State = ONE_SHOT_TEMP_THERMISTOR_SAMPLE_STATE
      · right; right
        simp only [SD14_ADC, if_neg h1, if_neg h2, if_pos h3, if_neg h4, if_pos h5, and_self]
        exact ⟨h5, trivial⟩
      · left
        simp only [SD14_ADC, if_neg h1, if_neg h2, if_pos h3, if_neg h4, if_neg h5, and_self]
  · left
    simp only [SD14_ADC, if_neg h1, if_neg h2, if_neg h3, and_self]

theorem SD14_ADC_reference_effect (H : Header) (mem0 : Nat) (m : Machine)
    (h1 : H.SD14IV__RES ≠ H.SD14IV__NONE) (h2 : H.SD14IV__RES ≠ H.SD14IV__OV)
    (hs : m.State = ONE_SHOT_TEMP_REFERENCE_SAMPLE_STATE) :
    (SD14_ADC H H.SD14IV__RES mem0 m).machine.State = ONE_SHOT_TEMP_THERMISTOR_SAMPLE_STATE ∧
    (SD14_ADC H H.SD14IV__RES mem0 m).machine.SamplesBuffer
      = Function.update m.SamplesBuffer 0 (u16 mem0) ∧
    (SD14_ADC H H.SD14IV__RES mem0 m).machine.SD14CTL0
      = bis16 (bis16 (u16 (H.SD14IE + H.SD14SGL + H.SD14DIV1)) H.SD14EN) H.SD14SC ∧
    (SD14_ADC H H.SD14IV__RES mem0 m).machine.SD14CTL1
      = u16 (H.SD14RBEN1 + H.SD14RBEN0 + H.SD14UNI + H.SD14GAIN0 + H.SD14INTDLY0
          + THERMISTOR_ADC2_CHANNEL) ∧
    (SD14_ADC H H.SD14IV__RES mem0 m).wake = false := by
  rw [SD14_ADC_reference H mem0 m h1 h2 hs]
  exact ⟨rfl, rfl, rfl, rfl, rfl⟩

theorem SD14_ADC_thermistor_effect (H : Header) (mem0 : Nat) (m : Machine)
    (h1 : H.SD14IV__RES ≠ H.SD14IV__NONE) (h2 : H.SD14IV__RES ≠ H.SD14IV__OV)
    (hs : m.State = ONE_SHOT_TEMP_THERMISTOR_SAMPLE_STATE) :
    (SD14_ADC H H.SD14IV__RES mem0 m).machine.State = IDLE_STATE ∧
    (SD14_ADC H H.SD14IV__RES mem0 m).machine.SamplesBuffer
      = Function.update m.SamplesBuffer 1 (u16 mem0) ∧
    (SD14_ADC H H.SD14IV__RES mem0 m).machine.SD14CTL0
      = bic16 (bic16 m.SD14CTL0 H.SD14IFG) H.SD14EN ∧
    (SD14_ADC H H.SD14IV__RES mem0 m).wake = true := by
  rw [SD14_ADC_thermistor H mem0 m h1 h2 hs]
  exact ⟨rfl, rfl, rfl, rfl⟩

/-! ## Wake (C6) -/

/-- C6. For every value of State and every interrupt cause, one run of the
handler signals wake if and only if the cause is conversion-complete and State
is AwaitingThermistor on entry; so the completion taken in AwaitingReference
never wakes the main flow, the completion taken in AwaitingThermistor always
does, and an overflow interrupt never does.  The case label SD14IV__RES is
distinct from the two labels tested before it. -/
theorem wake_iff_thermistor_completion (H : Header) (iv mem0 : Nat) (m : Machine)
    (h1 : H.SD14IV__RES ≠ H.SD14IV__NONE) (h2 : H.SD14IV__RES ≠ H.SD14IV__OV) :
    ((SD14_ADC H iv mem0 m).wake = true ↔
      (iv = H.SD14IV__RES ∧ m.State = ONE_SHOT_TEMP_THERMISTOR_SAMPLE_STATE)) ∧
    (m.State = ONE_SHOT_TEMP_REFERENCE_SAMPLE_STATE →
      (SD14_ADC H H.SD14IV__RES mem0 m).wake = false) ∧
    (m.State = ONE_SHOT_TEMP_THERMISTOR_SAMPLE_STATE →
      (SD14_ADC H H.SD14IV__RES mem0 m).wake = true) ∧
    (SD14_ADC H H.SD14IV__OV mem0 m).wake = false := by
  refine ⟨?_, ?_, ?_, (SD14_ADC_overflow_State H mem0 m).2.2⟩
  · constructor
    · intro hw
      by_cases h3 : iv = H.SD14IV__RES
      · refine ⟨h3, ?_⟩
        rcases SD14_ADC_State_cases H iv mem0 m with h | h | h
        · rw [h.2] at hw; cases hw
        · rw [h.2.2] at hw; cases hw
        · exact h.1
      · exfalso
        by_cases h4 : iv = H.SD14IV__NONE
        · simp [SD14_ADC, if_pos h4] at hw
        · by_cases h5 : iv = H.SD14IV__OV
          · simp [SD14_ADC, if_neg h4, if_pos h5] at hw
          · simp [SD14_ADC, if_neg h4, if_neg h5, if_neg h3] at hw
    · rintro ⟨h3, h4⟩
      rw [h3, SD14_ADC_thermistor H mem0 m h1 h2 h4]
  · intro hs
    rw [SD14_ADC_reference H mem0 m h1 h2 hs]
  · intro hs
    rw [SD14_ADC_thermistor H mem0 m h1 h2 hs]

/-- Witness of C6: the completion interrupt taken in AwaitingThermistor. -/
theorem wake_iff_thermistor_completion_witness :
    sampleHeader.SD14IV__RES ≠ sampleHeader.SD14IV__NONE ∧
    sampleHeader.SD14IV__RES ≠ sampleHeader.SD14IV__OV ∧
    (SD14_ADC sampleHeader 4 77 ⟨3, fun _ => 0, 0x0267, 0xD20A, []⟩).wake = true :=
  ⟨by decide, by decide,
   ((wake_iff_thermistor_completion sampleHeader 4 77 ⟨3, fun _ => 0, 0x0267, 0xD20A, []⟩
      (by decide) (by decide)).1).2 ⟨rfl, rfl⟩⟩

/-! ## The acquisition cycle (C2) -/

/-- C2. For every pair of 16-bit conversion results r and t and any overflow
interrupts taken before the first completion (one per element of ovs1) and
between the two completions (one per element of ovs2): starting from the cycle
request of the main flow, after the first conversion-complete interrupt
SamplesBuffer[0] = r, the converter registers hold what SetupSD14 writes for
THERMISTOR_ADC2_CHANNEL, State = AwaitingThermistor and wake is not signalled;
after the second one SamplesBuffer[0] = r, SamplesBuffer[1] = t, the bit
SD14EN of SD14CTL0 is clear, State = Idle and wake is signalled.  The case
label SD14IV__RES is distinct from the two labels tested before it. -/
theorem acquisition_cycle (H : Header) (r t : Nat) (ovs1 ovs2 : List Nat) (m : Machine)
    (hr : r < 65536) (ht : t < 65536)
    (h1 : H.SD14IV__RES ≠ H.SD14IV__NONE) (h2 : H.SD14IV__RES ≠ H.SD14IV__OV) :
    (cycleRequest H m).State = ONE_SHOT_TEMP_REFERENCE_SAMPLE_STATE ∧
    (SD14_ADC H H.SD14IV__RES r (overflows H ovs1 (cycleRequest H m))).machine.SamplesBuffer 0 = r ∧
    (SD14_ADC H H.SD14IV__RES r (overflows H ovs1 (cycleRequest H m))).machine.SD14CTL1
      = u16 (H.SD14RBEN1 + H.SD14RBEN0 + H.SD14UNI + H.SD14GAIN0 + H.SD14INTDLY0
          + THERMISTOR_ADC2_CHANNEL) ∧
    (SD14_ADC H H.SD14IV__RES r (overflows H ovs1 (cycleRequest H m))).machine.SD14CTL0
      = bis16 (bis16 (u16 (H.SD14IE + H.SD14SGL + H.SD14DIV1)) H.SD14EN) H.SD14SC ∧
    (SD14_ADC H H.SD14IV__RES r (overflows H ovs1 (cycleRequest H m))).machine.State
      = ONE_SHOT_TEMP_THERMISTOR_SAMPLE_STATE ∧
    (SD14_ADC H H.SD14IV__RES r (overflows H ovs1 (cycleRequest H m))).wake = false ∧
    (SD14_ADC H H.SD14IV__RES t (overflows H ovs2
      (SD14_ADC H H.SD14IV__RES r (overflows H ovs1 (cycleRequest H m))).machine)).machine.SamplesBuffer 0
      = r ∧
    (SD14_ADC H H.SD14IV__RES t (overflows H ovs2
      (SD14_ADC H H.SD14IV__RES r (overflows H ovs1 (cycleRequest H m))).machine)).machine.SamplesBuffer 1
      = t ∧
    (SD14_ADC H H.SD14IV__RES t (overflows H ovs2
      (SD14_ADC H H.SD14IV__RES r (overflows H ovs1 (cycleRequest H m))).machine)).machine.SD14CTL0
      &&& H.SD14EN = 0 ∧
    (SD14_ADC H H.SD14IV__RES t (overflows H ovs2
      (SD14_ADC H H.SD14IV__RES r (overflows H ovs1 (cycleRequest H m))).machine)).machine.State
      = IDLE_STATE ∧
    (SD14_ADC H H.SD14IV__RES t (overflows H ovs2
      (SD14_ADC H H.SD14IV__RES r (overflows H ovs1 (cycleRequest H m))).machine)).wake = true := by
  have hur : u16 r = r := Nat.mod_eq_of_lt hr
  have hut : u16 t = t := Nat.mod_eq_of_lt ht
  have hs0 : (overflows H ovs1 (cycleRequest H m)).State
      = ONE_SHOT_TEMP_REFERENCE_SAMPLE_STATE := (overflows_State H ovs1 _).1
  obtain ⟨a1, a2, a3, a4, a5⟩ := SD14_ADC_reference_effect H r _ h1 h2 hs0
  have ho := overflows_State H ovs2
    (SD14_ADC H H.SD14IV__RES r (overflows H ovs1 (cycleRequest H m))).machine
  obtain ⟨b1, b2, b3, b4⟩ := SD14_ADC_thermistor_effect H t _ h1 h2 (ho.1.trans a1)
  refine ⟨rfl, ?_, a4, a3, a1, a5, ?_, ?_, ?_, b1, b4⟩
  · rw [a2, Function.update_same, hur]
  · rw [b2, Function.update_noteq (by decide), ho.2, a2, Function.update_same, hur]
  · rw [b2, Function.update_same, hut]
  · rw [b3]
    exact bic16_land_self _ _

/-- Witness of C2: a cycle with results 0x1234 and 0x0abc, one overflow
interrupt before the first completion and two between the completions. -/
theorem acquisition_cycle_witness :
    (0x1234 < 65536 ∧ 0x0abc < 65536) ∧
    (SD14_ADC sampleHeader sampleHeader.SD14IV__RES 0x0abc (overflows sampleHeader [1, 2]
      (SD14_ADC sampleHeader sampleHeader.SD14IV__RES 0x1234 (overflows sampleHeader [0]
        (cycleRequest sampleHeader (initial 0 0).m))).machine)).machine.SamplesBuffer 1 = 0x0abc :=
  ⟨⟨by decide, by decide⟩,
   (acquisition_cycle sampleHeader 0x1234 0x0abc [0] [1, 2] (initial 0 0).m
      (by decide) (by decide) (by decide) (by decide)).2.2.2.2.2.2.2.1⟩

/-! ## The state machine over whole executions (C1, C8) -/

theorem step_initial (H : Header) (ctl0 ctl1 : Nat) (e : Event) (s : Sys)
    (h : step H e (initial ctl0 ctl1) = some s) :
    e = Event.request ∧ afterRequest s ∧
      s.m.State = ONE_SHOT_TEMP_REFERENCE_SAMPLE_STATE := by
  cases e with
  | request =>
    simp only [step, initial, if_true, Option.some.injEq] at h
    subst h
    exact ⟨rfl, ⟨rfl, Or.inl ⟨rfl, Or.inl rfl⟩⟩, rfl⟩
  | interrupt iv mem0 =>
    simp [step, initial] at h

theorem step_afterRequest (H : Header) (e : Event) (s s' : Sys)
    (hs : afterRequest s) (h : step H e s = some s') :
    afterRequest s' ∧
      (s'.m.State = s.m.State ∨
       (s.m.State = ONE_SHOT_TEMP_REFERENCE_SAMPLE_STATE ∧
          s'.m.State = ONE_SHOT_TEMP_THERMISTOR_SAMPLE_STATE) ∨
       (s.m.State = ONE_SHOT_TEMP_THERMISTOR_SAMPLE_STATE ∧ s'.m.State = IDLE_STATE)) := by
  obtain ⟨hg, hpc⟩ := hs
  cases e with
  | request =>
    exfalso
    rcases hpc with ⟨hp, _⟩ | ⟨hp, _⟩ <;> simp [step, hp] at h
  | interrupt iv mem0 =>
    simp only [step, hg, if_true, Option.some.injEq] at h
    subst h
    rcases SD14_ADC_State_cases H iv mem0 s.m with ⟨c1, c2⟩ | ⟨c1, c2, c3⟩ | ⟨c1, c2, c3⟩
    · refine ⟨⟨rfl, ?_⟩, Or.inl c1⟩
      simp only [c2, c1]
      simpa using hpc
    · refine ⟨⟨rfl, ?_⟩, Or.inr (Or.inl ⟨c1, c2⟩)⟩
      simp only [c3, c2]
      rcases hpc with ⟨hp, _⟩ | ⟨_, hi⟩
      · exact Or.inl ⟨by simpa using hp, Or.inr trivial⟩
      · rw [c1] at hi; cases hi
    · refine ⟨⟨rfl, ?_⟩, Or.inr (Or.inr ⟨c1, c2⟩)⟩
      simp only [c3, c2]
      rcases hpc with ⟨hp, _⟩ | ⟨_, hi⟩
      · exact Or.inr ⟨by simp [hp, MainPC.resume], trivial⟩
      · rw [c1] at hi; cases hi

theorem exec_afterRequest (H : Header) (es : List Event) (s s' : Sys)
    (hs : afterRequest s) (h : exec H es s = some s') : afterRequest s' := by
  induction es generalizing s with
  | nil =>
    simp only [exec, Option.some.injEq] at h
    subst h
    exact hs
  | cons e es ih =>
    simp only [exec] at h
    cases hstep : step H e s with
    | none => rw [hstep] at h; cases h
    | some s1 =>
      rw [hstep] at h
      exact ih s1 (step_afterRequest H e s s1 hs hstep).1 h

theorem exec_initial (H : Header) (ctl0 ctl1 : Nat) (es : List Event) (s : Sys)
    (h : exec H es (initial ctl0 ctl1) = some s) :
    (es = [] ∧ s = initial ctl0 ctl1) ∨ afterRequest s := by
  cases es with
  | nil =>
    simp only [exec, Option.some.injEq] at h
    exact Or.inl ⟨rfl, h.symm⟩
  | cons e es =>
    simp only [exec] at h
    cases hstep : step H e (initial ctl0 ctl1) with
    | none => rw [hstep] at h; cases h
    | some s1 =>
      rw [hstep] at h
      exact Or.inr (exec_afterRequest H es s1 s (step_initial H ctl0 ctl1 e s1 hstep).2.1 h)

/-- C1, counterexample. The first step of every execution is the cycle request
taken in the initial state; it changes State from the zero it holds there,
which is none of the three states, to AwaitingReference: the change is not one
of the three edges of the cycle. -/
theorem first_request_off_cycle :
    exec sampleHeader [] (initial 0 0) = some (initial 0 0) ∧
    step sampleHeader Event.request (initial 0 0)
      = some ⟨cycleRequest sampleHeader (initial 0 0).m, MainPC.line292, true⟩ ∧
    (initial 0 0).m.State = 0 ∧
    (cycleRequest sampleHeader (initial 0 0).m).State = ONE_SHOT_TEMP_REFERENCE_SAMPLE_STATE ∧
    ¬ ((cycleRequest sampleHeader (initial 0 0).m).State = (initial 0 0).m.State ∨
       cycleEdge (initial 0 0).m.State (cycleRequest sampleHeader (initial 0 0).m).State) := by
  refine ⟨rfl, rfl, rfl, rfl, ?_⟩
  show ¬ ((2 : Nat) = 0 ∨ cycleEdge 0 2)
  unfold cycleEdge IDLE_STATE ONE_SHOT_TEMP_REFERENCE_SAMPLE_STATE
    ONE_SHOT_TEMP_THERMISTOR_SAMPLE_STATE
  decide

/-- C1, amended. In every execution from the initial state, each step (the
cycle request of the main flow, or a run of the handler with any cause) either
leaves State unchanged, or changes it along one of the edges Idle to
AwaitingReference, AwaitingReference to AwaitingThermistor, AwaitingThermistor
to Idle, or is the first step of the execution, the cycle request that takes
State from its initial zero to AwaitingReference. -/
theorem State_changes_along_cycle (H : Header) (ctl0 ctl1 : Nat) (es : List Event)
    (e : Event) (s s' : Sys)
    (hreach : exec H es (initial ctl0 ctl1) = some s) (hstep : step H e s = some s') :
    s'.m.State = s.m.State ∨ cycleEdge s.m.State s'.m.State ∨
    (es = [] ∧ e = Event.request ∧ s.m.State = 0 ∧
      s'.m.State = ONE_SHOT_TEMP_REFERENCE_SAMPLE_STATE) := by
  rcases exec_initial H ctl0 ctl1 es s hreach with ⟨hes, hs⟩ | hs
  · subst hs
    obtain ⟨he, _, hst⟩ := step_initial H ctl0 ctl1 e s' hstep
    exact Or.inr (Or.inr ⟨hes, he, rfl, hst⟩)
  · rcases (step_afterRequest H e s s' hs hstep).2 with h | h | h
    · exact Or.inl h
    · exact Or.inr (Or.inl (Or.inr (Or.inl h)))
    · exact Or.inr (Or.inl (Or.inr (Or.inr h)))

/-- Witness of C1 amended: after the cycle request, the first completion
interrupt moves State from AwaitingReference to AwaitingThermistor. -/
theorem State_changes_along_cycle_witness :
    exec sampleHeader [Event.request] (initial 0 0)
      = some ⟨cycleRequest sampleHeader (initial 0 0).m, MainPC.line292, true⟩ ∧
    step sampleHeader (Event.interrupt 4 0x1234)
        ⟨cycleRequest sampleHeader (initial 0 0).m, MainPC.line292, true⟩
      = some ⟨(SD14_ADC sampleHeader 4 0x1234 (cycleRequest sampleHeader (initial 0 0).m)).machine,
          MainPC.line292, true⟩ ∧
    ((SD14_ADC sampleHeader 4 0x1234 (cycleRequest sampleHeader (initial 0 0).m)).machine.State
        = (cycleRequest sampleHeader (initial 0 0).m).State ∨
     cycleEdge (cycleRequest sampleHeader (initial 0 0).m).State
        (SD14_ADC sampleHeader 4 0x1234 (cycleRequest sampleHeader (initial 0 0).m)).machine.State ∨
     ([Event.request] = [] ∧ Event.interrupt 4 0x1234 = Event.request ∧
        (cycleRequest sampleHeader (initial 0 0).m).State = 0 ∧
        (SD14_ADC sampleHeader 4 0x1234 (cycleRequest sampleHeader (initial 0 0).m)).machine.State
          = ONE_SHOT_TEMP_REFERENCE_SAMPLE_STATE)) :=
  ⟨rfl, rfl,
   State_changes_along_cycle sampleHeader 0 0 [Event.request] (Event.interrupt 4 0x1234)
     ⟨cycleRequest sampleHeader (initial 0 0).m, MainPC.line292, true⟩
     ⟨(SD14_ADC sampleHeader 4 0x1234 (cycleRequest sampleHeader (initial 0 0).m)).machine,
       MainPC.line292, true⟩ rfl rfl⟩

/-- C8, counterexample. In the initial state, before the loop of main first
assigns it, State holds zero, which is none of the three enumerated values. -/
theorem initial_State_not_enumerated :
    exec sampleHeader [] (initial 0 0) = some (initial 0 0) ∧
    (initial 0 0).m.State = 0 ∧ ¬ isStateType (initial 0 0).m.State := by
  refine ⟨rfl, rfl, ?_⟩
  show ¬ isStateType 0
  unfold isStateType IDLE_STATE ONE_SHOT_TEMP_REFERENCE_SAMPLE_STATE
    ONE_SHOT_TEMP_THERMISTOR_SAMPLE_STATE
  decide

/-- C8, amended. In every state reached from the initial state by at least one
step, that is from the first assignment to State in the loop of main onwards,
State holds one of the three enumerated values; in the initial state itself it
holds zero. -/
theorem State_enumerated_after_request (H : Header) (ctl0 ctl1 : Nat) (es : List Event)
    (s : Sys) (hreach : exec H es (initial ctl0 ctl1) = some s) :
    (es ≠ [] → isStateType s.m.State) ∧ (es = [] → s.m.State = 0) := by
  rcases exec_initial H ctl0 ctl1 es s hreach with ⟨hes, hs⟩ | hs
  · subst hs
    exact ⟨fun hne => absurd hes hne, fun _ => rfl⟩
  · have hst : isStateType s.m.State := by
      rcases hs.2 with ⟨_, h | h⟩ | ⟨_, h⟩
      · exact Or.inr (Or.inl h)
      · exact Or.inr (Or.inr h)
      · exact Or.inl h
    refine ⟨fun _ => hst, fun hes => ?_⟩
    subst hes
    simp only [exec, Option.some.injEq] at hreach
    subst hreach
    rcases hs.2 with ⟨hp, _⟩ | ⟨hp, _⟩ <;> cases hp

/-- Witness of C8 amended: the state reached by the cycle request and one
completion interrupt. -/
theorem State_enumerated_after_request_witness :
    exec sampleHeader [Event.request, Event.interrupt 4 0x1234] (initial 0 0)
      = some ⟨(SD14_ADC sampleHeader 4 0x1234 (cycleRequest sampleHeader (initial 0 0).m)).machine,
          MainPC.line292, true⟩ ∧
    isStateType
      (SD14_ADC sampleHeader 4 0x1234 (cycleRequest sampleHeader (initial 0 0).m)).machine.State :=
  ⟨rfl,
   (State_enumerated_after_request sampleHeader 0 0 [Event.request, Event.interrupt 4 0x1234]
     ⟨(SD14_ADC sampleHeader 4 0x1234 (cycleRequest sampleHeader (initial 0 0).m)).machine,
       MainPC.line292, true⟩ rfl).1 (by simp)⟩

/-! ## The driver table (C5) -/

/-- C5. The driver table image, read as 16-bit words at descending addresses
from DRIVER_TABLE_START = 0xFFCE, is the key 0xCECE at 0xFFCE, the command ID
0x00AA at 0xFFCC, the address of userCustomCommand at 0xFFCA and the key
0xCECE at DRIVER_TABLE_END = 0xFFC8, the four words lying with no gap and no
overlap; parsing it yields exactly one pair, the lookup of 0x00AA returns the
address of userCustomCommand and the lookup of any other command ID returns
nothing. -/
theorem driver_table_image (userCustomCommandAddress : Nat) :
    DRIVER_TABLE_START = 0xFFCE ∧ DRIVER_TABLE_END = 0xFFC8 ∧
    (driverTableImage userCustomCommandAddress).map (fun p => (p.location, p.size, p.value))
      = [(0xFFCE, 2, 0xCECE), (0xFFCC, 2, 0x00AA), (0xFFCA, 2, userCustomCommandAddress),
         (0xFFC8, 2, 0xCECE)] ∧
    contiguousDescending (driverTableImage userCustomCommandAddress) = true ∧
    readWord (driverTableImage userCustomCommandAddress) 0xFFCE = some 0xCECE ∧
    readWord (driverTableImage userCustomCommandAddress) 0xFFCC = some 0x00AA ∧
    readWord (driverTableImage userCustomCommandAddress) 0xFFCA = some userCustomCommandAddress ∧
    readWord (driverTableImage userCustomCommandAddress) 0xFFC8 = some 0xCECE ∧
    parseDriverTable (readWord (driverTableImage userCustomCommandAddress))
      = some [(USER_CUSTOM_COMMAND_ID, userCustomCommandAddress)] ∧
    lookupCommand (readWord (driverTableImage userCustomCommandAddress)) 0x00AA
      = some userCustomCommandAddress ∧
    (∀ commandId, commandId ≠ 0x00AA →
      lookupCommand (readWord (driverTableImage userCustomCommandAddress)) commandId = none) := by
  have hparse : parseDriverTable (readWord (driverTableImage userCustomCommandAddress))
      = some [(USER_CUSTOM_COMMAND_ID, userCustomCommandAddress)] := rfl
  refine ⟨rfl, rfl, rfl, rfl, rfl, rfl, rfl, rfl, hparse, rfl, ?_⟩
  intro commandId hne
  unfold lookupCommand
  rw [hparse]
  have hid : ¬ USER_CUSTOM_COMMAND_ID = commandId := fun h => hne h.symm
  simp [List.find?, hid]

/-! ## The NDEF tag image (C9) -/

/-- C9. The array NFC_NDEF_Message is a well-formed NDEF URI tag image: bytes
0 to 3 are the capability container (magic 0xE1, version and access 0x40,
capacity 0xF2, extended-memory flag 0x00); the block at offset 4 has type 0x03
and length byte 0x0B = 11, and its eleven value bytes are exactly one short
record (nothing left over) of header 0xD1, whose type-length byte 1 is the
size of its type 'U' and whose payload-length byte 7 is the size of its
payload, the URI identifier 0x01 followed by the six characters of "ti.com";
the terminator 0xFE is the byte right after the block, at offset 17. -/
theorem NFC_NDEF_Message_well_formed :
    NFC_NDEF_Message.length = 21 ∧
    NFC_NDEF_Message.take 4 = [0xE1, 0x40, 0xF2, 0x00] ∧
    readTLV NFC_NDEF_Message 4
      = some ⟨0x03, 0x0B, [0xD1, 0x01, 0x07, 0x55, 0x01, 0x74, 0x69, 0x2E, 0x63, 0x6F, 0x6D], 17⟩ ∧
    NFC_NDEF_Message.get? 4 = some 0x03 ∧
    NFC_NDEF_Message.get? 5 = some 11 ∧
    readShortRecord [0xD1, 0x01, 0x07, 0x55, 0x01, 0x74, 0x69, 0x2E, 0x63, 0x6F, 0x6D]
      = some ⟨0xD1, 1, 7, [0x55], 0x01 :: ("ti.com".toList.map Char.toNat), []⟩ ∧
    ['U'.toNat] = [0x55] ∧
    [0x55].length = 1 ∧
    (0x01 :: ("ti.com".toList.map Char.toNat)).length = 7 ∧
    1 + 1 + 1 + [0x55].length + (0x01 :: ("ti.com".toList.map Char.toNat)).length = 0x0B ∧
    NFC_NDEF_Message.get? 17 = some 0xFE := by
  refine ⟨by decide, by decide, by decide, by decide, by decide, by decide, by decide,
    by decide, by decide, by decide, by decide⟩

/-! ## The custom command (C7, C10) -/

/-- C7, counterexample. With RF13MTXF_L the byte-wide low half of the transmit
FIFO register, the first write of userCustomCommand is an 8-bit zero: the
writes are not a 16-bit zero followed by the 16-bit sample. -/
theorem custom_command_first_write_is_a_byte :
    (userCustomCommand sampleHeader 0x1234 (initial 0 0).m).RF13MTX
      = [⟨8, 0⟩, ⟨16, 0x1234⟩] ∧
    (userCustomCommand sampleHeader 0x1234 (initial 0 0).m).RF13MTX
      ≠ [⟨16, 0⟩, ⟨16, 0x1234⟩] := by
  constructor
  · decide
  · decide

/-- C7, amended. For every 16-bit value v that the read of SD14MEM0 returns,
userCustomCommand adds exactly two writes to the RF transmit FIFO: a zero
written through RF13MTXF_L, 8 bits wide, followed by the sample v written
through RF13MTXF, 16 bits wide, unmodified. -/
theorem custom_command_writes (H : Header) (v : Nat) (m : Machine)
    (hv : v < 65536) (hlow : H.RF13MTXF_L_bits = 8) (hfull : H.RF13MTXF_bits = 16) :
    (userCustomCommand H v m).RF13MTX = m.RF13MTX ++ [⟨8, 0⟩, ⟨16, v⟩] := by
  have h : (userCustomCommand H v m).RF13MTX
      = (m.RF13MTX ++ [⟨H.RF13MTXF_L_bits, 0 % 2 ^ H.RF13MTXF_L_bits⟩])
        ++ [⟨H.RF13MTXF_bits, Function.update m.SamplesBuffer 0 (u16 v) 0 % 2 ^ H.RF13MTXF_bits⟩] :=
    rfl
  rw [h, hlow, hfull, Function.update_same, List.append_assoc]
  have h1 : u16 v % 2 ^ 16 = v := by
    unfold u16
    omega
  rw [h1]
  rfl

/-- Witness of C7 amended: the sample 0x1234 sent from the initial machine. -/
theorem custom_command_writes_witness :
    (0x1234 < 65536 ∧ sampleHeader.RF13MTXF_L_bits = 8 ∧ sampleHeader.RF13MTXF_bits = 16) ∧
    (userCustomCommand sampleHeader 0x1234 (initial 0 0).m).RF13MTX
      = (initial 0 0).m.RF13MTX ++ [⟨8, 0⟩, ⟨16, 0x1234⟩] :=
  ⟨⟨by decide, rfl, rfl⟩,
   custom_command_writes sampleHeader 0x1234 (initial 0 0).m (by decide) rfl rfl⟩

/-- C10. For every value of State, every content of SamplesBuffer and every
converter register state, userCustomCommand leaves State and the slots 1, 2
and 3 of SamplesBuffer unchanged, overwrites SamplesBuffer[0] with the 16-bit
value read from SD14MEM0, and leaves SD14CTL0 with SD14EN and SD14SC set and
the interrupt-enable bit SD14IE clear; so in AwaitingReference and in
AwaitingThermistor it replaces the reference sample and leaves State as it
was.  The flags are those of a 16-bit register, SD14EN and VIRTGND are
disjoint, and SD14IE is disjoint from SD14EN, VIRTGND and SD14SC. -/
theorem custom_command_frame (H : Header) (mem0 : Nat) (m : Machine)
    (hmem : mem0 < 65536)
    (hsum : H.SD14EN + H.VIRTGND < 65536) (hSC : H.SD14SC < 65536)
    (hdis : H.SD14EN &&& H.VIRTGND = 0)
    (hIE : H.SD14IE &&& (H.SD14EN ||| H.VIRTGND ||| H.SD14SC) = 0) :
    (userCustomCommand H mem0 m).State = m.State ∧
    (userCustomCommand H mem0 m).SamplesBuffer 1 = m.SamplesBuffer 1 ∧
    (userCustomCommand H mem0 m).SamplesBuffer 2 = m.SamplesBuffer 2 ∧
    (userCustomCommand H mem0 m).SamplesBuffer 3 = m.SamplesBuffer 3 ∧
    (userCustomCommand H mem0 m).SamplesBuffer 0 = mem0 ∧
    (userCustomCommand H mem0 m).SD14CTL0 &&& H.SD14EN = H.SD14EN ∧
    (userCustomCommand H mem0 m).SD14CTL0 &&& H.SD14SC = H.SD14SC ∧
    (userCustomCommand H mem0 m).SD14CTL0 &&& H.SD14IE = 0 := by
  have hbuf : (userCustomCommand H mem0 m).SamplesBuffer
      = Function.update m.SamplesBuffer 0 (u16 mem0) := rfl
  have hctl : (userCustomCommand H mem0 m).SD14CTL0
      = bis16 (u16 (H.SD14EN ||| H.VIRTGND)) H.SD14SC := by
    rw [← add_eq_lor_of_land_eq_zero _ _ hdis]
    rfl
  have hEN : H.SD14EN < 65536 := by omega
  refine ⟨rfl, ?_, ?_, ?_, ?_, ?_, ?_, ?_⟩
  · rw [hbuf, Function.update_noteq (by decide)]
  · rw [hbuf, Function.update_noteq (by decide)]
  · rw [hbuf, Function.update_noteq (by decide)]
  · rw [hbuf, Function.update_same]
    exact Nat.mod_eq_of_lt hmem
  · rw [hctl]
    apply Nat.eq_of_testBit_eq
    intro i
    rw [Nat.testBit_and, testBit_bis16, testBit_u16, Nat.testBit_or, testBit_of_lt_65536 hEN i]
    cases H.SD14EN.testBit i <;> cases decide (i < 16) <;> simp
  · rw [hctl]
    exact bis16_land_self _ _ hSC
  · rw [hctl]
    apply Nat.eq_of_testBit_eq
    intro i
    have hd := land_eq_zero_testBit hIE i
    rw [Nat.testBit_or, Nat.testBit_or] at hd
    rw [Nat.testBit_and, testBit_bis16, testBit_u16, Nat.testBit_or, Nat.zero_testBit]
    revert hd
    cases H.SD14IE.testBit i <;> cases H.SD14EN.testBit i <;> cases H.VIRTGND.testBit i <;>
      cases H.SD14SC.testBit i <;> cases decide (i < 16) <;> simp

/-- Witness of C10: the custom command invoked in AwaitingThermistor, with the
reference sample 0x0111 of the cycle in flight in SamplesBuffer[0]. -/
theorem custom_command_frame_witness :
    (userCustomCommand sampleHeader 0x0222
      ⟨3, Function.update (fun _ => 0) 0 0x0111, 0x0263, 0xD20A, []⟩).State = 3 ∧
    (userCustomCommand sampleHeader 0x0222
      ⟨3, Function.update (fun _ => 0) 0 0x0111, 0x0263, 0xD20A, []⟩).SamplesBuffer 0 = 0x0222 ∧
    (userCustomCommand sampleHeader 0x0222
      ⟨3, Function.update (fun _ => 0) 0 0x0111, 0x0263, 0xD20A, []⟩).SD14CTL0
        &&& sampleHeader.SD14IE = 0 :=
  have h := custom_command_frame sampleHeader 0x0222
    ⟨3, Function.update (fun _ => 0) 0 0x0111, 0x0263, 0xD20A, []⟩
    (by decide) (by decide) (by decide) (by decide) (by decide)
  ⟨h.1, h.2.2.2.2.1, h.2.2.2.2.2.2.2⟩

/-! ## The completion interrupt outside a cycle (C11) -/

theorem testBit_bic16_of_lt (x f : Nat) (hx : x < 65536) (i : Nat) :
    (bic16 x f).testBit i = (x.testBit i && !f.testBit i) := by
  rw [testBit_bic16, testBit_of_lt_65536 hx i]
  cases x.testBit i <;> cases f.testBit i <;> cases decide (i < 16) <;> rfl

theorem bic16_land_of_disjoint (x e f : Nat) (hx : x < 65536) (hdis : e &&& f = 0) :
    bic16 x f &&& e = x &&& e := by
  apply Nat.eq_of_testBit_eq
  intro i
  have hd := land_eq_zero_testBit hdis i
  rw [Nat.testBit_and, Nat.testBit_and, testBit_bic16_of_lt x f hx i]
  revert hd
  cases x.testBit i <;> cases f.testBit i <;> cases e.testBit i <;> simp

theorem SD14_ADC_completion_elsewhere (H : Header) (mem0 : Nat) (m : Machine)
    (h1 : H.SD14IV__RES ≠ H.SD14IV__NONE) (h2 : H.SD14IV__RES ≠ H.SD14IV__OV)
    (hs1 : m.State ≠ ONE_SHOT_TEMP_REFERENCE_SAMPLE_STATE)
    (hs2 : m.State ≠ ONE_SHOT_TEMP_THERMISTOR_SAMPLE_STATE) :
    SD14_ADC H H.SD14IV__RES mem0 m
      = ⟨{ m with SD14CTL0 := bic16 m.SD14CTL0 H.SD14IFG }, false⟩ := by
  simp only [SD14_ADC, if_neg h1, if_neg h2, if_neg hs1, if_neg hs2, if_true]

/-- C11. For every value of State other than AwaitingReference and
AwaitingThermistor (Idle, the initial zero, or any other value), the handler
run with cause conversion-complete changes nothing except clearing the bits of
the data-available flag SD14IFG in SD14CTL0: State, every slot of
SamplesBuffer, SD14CTL1 and the transmit FIFO are unchanged, wake is not
signalled, every bit of SD14CTL0 outside SD14IFG keeps its value, and so the
converter is neither restarted (SD14SC as before) nor disabled (SD14EN as
before).  The case label SD14IV__RES is distinct from the two labels tested
before it, SD14CTL0 holds a 16-bit value, and SD14EN and SD14SC are flags
disjoint from SD14IFG. -/
theorem completion_outside_cycle_frame (H : Header) (mem0 : Nat) (m : Machine)
    (h1 : H.SD14IV__RES ≠ H.SD14IV__NONE) (h2 : H.SD14IV__RES ≠ H.SD14IV__OV)
    (hs1 : m.State ≠ ONE_SHOT_TEMP_REFERENCE_SAMPLE_STATE)
    (hs2 : m.State ≠ ONE_SHOT_TEMP_THERMISTOR_SAMPLE_STATE)
    (hreg : m.SD14CTL0 < 65536)
    (hEN : H.SD14EN &&& H.SD14IFG = 0) (hSC : H.SD14SC &&& H.SD14IFG = 0) :
    (SD14_ADC H H.SD14IV__RES mem0 m).machine.State = m.State ∧
    (SD14_ADC H H.SD14IV__RES mem0 m).machine.SamplesBuffer = m.SamplesBuffer ∧
    (SD14_ADC H H.SD14IV__RES mem0 m).machine.SD14CTL1 = m.SD14CTL1 ∧
    (SD14_ADC H H.SD14IV__RES mem0 m).machine.RF13MTX = m.RF13MTX ∧
    (SD14_ADC H H.SD14IV__RES mem0 m).wake = false ∧
    (SD14_ADC H H.SD14IV__RES mem0 m).machine.SD14CTL0 &&& H.SD14IFG = 0 ∧
    (∀ i, (SD14_ADC H H.SD14IV__RES mem0 m).machine.SD14CTL0.testBit i
        = (m.SD14CTL0.testBit i && !H.SD14IFG.testBit i)) ∧
    (SD14_ADC H H.SD14IV__RES mem0 m).machine.SD14CTL0 &&& H.SD14EN
        = m.SD14CTL0 &&& H.SD14EN ∧
    (SD14_ADC H H.SD14IV__RES mem0 m).machine.SD14CTL0 &&& H.SD14SC
        = m.SD14CTL0 &&& H.SD14SC := by
  rw [SD14_ADC_completion_elsewhere H mem0 m h1 h2 hs1 hs2]
  exact ⟨rfl, rfl, rfl, rfl, rfl, bic16_land_self _ _,
    fun i => testBit_bic16_of_lt _ _ hreg i,
    bic16_land_of_disjoint _ _ _ hreg hEN,
    bic16_land_of_disjoint _ _ _ hreg hSC⟩

/-- Witness of C11: a completion interrupt taken in Idle with the converter
disabled and the data-available flag set (SD14CTL0 = 0x0226), and one taken
while State still holds its initial zero with the converter running
(SD14CTL0 = 0x00c5). -/
theorem completion_outside_cycle_frame_witness :
    ((SD14_ADC sampleHeader sampleHeader.SD14IV__RES 0x0777
        ⟨IDLE_STATE, fun _ => 5, 0x0226, 0xD20A, []⟩).machine.State = IDLE_STATE ∧
     (SD14_ADC sampleHeader sampleHeader.SD14IV__RES 0x0777
        ⟨IDLE_STATE, fun _ => 5, 0x0226, 0xD20A, []⟩).machine.SD14CTL0
          &&& sampleHeader.SD14IFG = 0) ∧
    ((SD14_ADC sampleHeader sampleHeader.SD14IV__RES 0x0777
        ⟨0, fun _ => 0, 0x00c5, 0xD043, []⟩).machine.State = 0 ∧
     (SD14_ADC sampleHeader sampleHeader.SD14IV__RES 0x0777
        ⟨0, fun _ => 0, 0x00c5, 0xD043, []⟩).machine.SD14CTL0 &&& sampleHeader.SD14EN
          = 0x00c5 &&& sampleHeader.SD14EN) :=
  have hIdle := completion_outside_cycle_frame sampleHeader 0x0777
    ⟨IDLE_STATE, fun _ => 5, 0x0226, 0xD20A, []⟩
    (by decide) (by decide) (by decide) (by decide) (by decide) (by decide) (by decide)
  have hZero := completion_outside_cycle_frame sampleHeader 0x0777
    ⟨0, fun _ => 0, 0x00c5, 0xD043, []⟩
    (by decide) (by decide) (by decide) (by decide) (by decide) (by decide) (by decide)
  ⟨⟨hIdle.1, hIdle.2.2.2.2.2.1⟩, ⟨hZero.1, hZero.2.2.2.2.2.2.2.1⟩⟩

end Lazarus
